import Mathlib

/-!
Verification of the Expresso HTTP server's request dispatch engine.

This file shallowly embeds the Rust sources of the repository:
  - src/http/response.rs   (Response value type and serialization)
  - src/http/request.rs    (Request parsing)
  - src/router.rs          (Method enumeration and exact-match route table)
  - src/handler.rs         (per-route handler chain composition)
  - src/middleware.rs      (global middleware chain composition)
  - src/app/expresso.rs    (dispatch: route lookup, 404 fallback, middleware fold)
  - src/server/listener.rs (per-connection read/parse/write logic)

Rust HashMaps are modelled as association lists with replace-on-insert
semantics; Rust Strings are Lean Strings (Rust String::len is byte length,
modelled by String.utf8ByteSize); async handlers are modelled as pure
functions (each await point returns a value deterministically, which is
faithful because a single connection's dispatch is sequential).  Character
case conversion (Rust str::to_uppercase) is modelled on ASCII letters,
which covers every comparison the source performs.
-/

/-- Mirror of the `Request` struct in src/http/request.rs.  The header map
is an association list standing for the Rust HashMap. -/
structure Request where
  method : String
  path : String
  version : String
  headers : List (String × String)
  body : Option String
deriving DecidableEq, Repr

/-- Mirror of the `Response` struct in src/http/response.rs. -/
structure Response where
  status_code : Nat
  status_text : String
  headers : List (String × String)
  body : Option String
deriving DecidableEq, Repr

/-- Mirror of `Response::new` (src/http/response.rs lines 12-19). -/
def Response.new : Response :=
  { status_code := 200, status_text := "OK", headers := [], body := none }

/-- Mirror of `Response::status` (src/http/response.rs lines 21-33): sets the
code and derives the status text from the fixed match in the source. -/
def Response.status (r : Response) (code : Nat) : Response :=
  { r with
    status_code := code,
    status_text :=
      match code with
      | 200 => "OK"
      | 201 => "Created"
      | 400 => "Bad Request"
      | 404 => "Not Found"
      | 500 => "Internal Server Error"
      | _ => "Unknown" }

/-- Replace-on-insert into an association list: the model of
`HashMap::insert` used for headers and the route table. -/
def listInsert {α : Type} : List (String × α) → String → α → List (String × α)
  | [], k, v => [(k, v)]
  | (k', v') :: rest, k, v =>
      if k' = k then (k, v) :: rest else (k', v') :: listInsert rest k v

/-- Lookup in an association list: the model of `HashMap::get`. -/
def listLookup {α : Type} : List (String × α) → String → Option α
  | [], _ => none
  | (k', v) :: rest, k => if k' = k then some v else listLookup rest k

/-- Mirror of `Response::set_header` (src/http/response.rs lines 35-38). -/
def Response.set_header (r : Response) (key value : String) : Response :=
  { r with headers := listInsert r.headers key value }

/-- Mirror of `Response::send` (src/http/response.rs lines 40-43). -/
def Response.send (r : Response) (b : String) : Response :=
  { r with body := some b }

/-- Mirror of `Response::build` (src/http/response.rs lines 52-65): the
header block is accumulated by a left fold exactly like the Rust `for`
loop pushing onto a string, and `Content-Length` is the byte length of
the body (Rust `String::len`). -/
def Response.build (r : Response) : String :=
  let body_str := r.body.getD ""
  let content_length := body_str.utf8ByteSize
  let headers := r.headers.foldl (fun acc p => acc ++ p.1 ++ ": " ++ p.2 ++ "\r\n") ""
  "HTTP/1.1 " ++ toString r.status_code ++ " " ++ r.status_text ++
    "\r\nContent-Length: " ++ toString content_length ++ "\r\n" ++ headers ++ "\r\n" ++ body_str

/-! ## Request parsing (src/http/request.rs) -/

/-- Split a character list at every occurrence of the two-character
sequence CR LF, keeping empty pieces: the model of Rust
`str::split("\r\n")` used by `Request::from_raw`. -/
def splitCRLFAux : List Char → List Char → List (List Char)
  | acc, [] => [acc.reverse]
  | acc, '\r' :: '\n' :: rest => acc.reverse :: splitCRLFAux [] rest
  | acc, c :: rest => splitCRLFAux (c :: acc) rest

/-- String-level CRLF splitting. -/
def splitCRLF (s : String) : List String :=
  (splitCRLFAux [] s.data).map String.mk

/-- Whitespace test for the ASCII whitespace characters Rust
`char::is_whitespace` recognises in request lines. -/
def isWsChar (c : Char) : Bool :=
  c = ' ' || c = '\t' || c = '\n' || c = '\r' || c = '\x0b' || c = '\x0c'

/-- Split at whitespace characters, keeping empty pieces. -/
def splitWsAux : List Char → List Char → List (List Char)
  | acc, [] => [acc.reverse]
  | acc, c :: rest =>
      if isWsChar c then acc.reverse :: splitWsAux [] rest
      else splitWsAux (c :: acc) rest

/-- Model of Rust `str::split_whitespace`: split at whitespace and drop
empty pieces. -/
def splitWhitespaceStr (s : String) : List String :=
  ((splitWsAux [] s.data).filter (fun t => t ≠ [])).map String.mk

/-- Scan for the first occurrence of the two-character separator `": "`;
the model of Rust `str::split_once(": ")` used on header lines. -/
def splitOnceAux : List Char → List Char → Option (List Char × List Char)
  | _, [] => none
  | acc, ':' :: ' ' :: rest => some (acc.reverse, rest)
  | acc, c :: rest => splitOnceAux (c :: acc) rest

/-- String-level `split_once(": ")`. -/
def splitOnceColonSpace (s : String) : Option (String × String) :=
  match splitOnceAux [] s.data with
  | none => none
  | some kv => some (String.mk kv.1, String.mk kv.2)

/-- The header loop of `Request::from_raw` (src/http/request.rs lines
27-34): consume lines until the first empty line, inserting every line
that splits on `": "` and silently skipping the rest; returns the header
map together with the remaining (body) lines. -/
def parseHeaderLines : List (String × String) → List String → List (String × String) × List String
  | acc, [] => (acc, [])
  | acc, line :: rest =>
      if line = "" then (acc, rest)
      else
        match splitOnceColonSpace line with
        | some kv => parseHeaderLines (listInsert acc kv.1 kv.2) rest
        | none => parseHeaderLines acc rest

/-- Model of Rust `Vec::join("\r\n")`, used to rebuild the body from the
lines remaining after the header loop. -/
def joinCRLF : List String → String
  | [] => ""
  | [x] => x
  | x :: rest => x ++ "\r\n" ++ joinCRLF rest

/-- Mirror of `Request::from_raw` (src/http/request.rs lines 16-39):
split on CRLF, split the request line on whitespace into
method/path/version (failing softly if fewer than three tokens), parse
header lines up to the first empty line, and join the remaining lines
back into the body (`none` if empty). -/
def Request.from_raw (buffer : String) : Option Request :=
  match splitCRLF buffer with
  | [] => none
  | request_line :: rest =>
    match splitWhitespaceStr request_line with
    | method :: path :: version :: _ =>
        let hb := parseHeaderLines [] rest
        let bodyStr := joinCRLF hb.2
        some { method := method, path := path, version := version, headers := hb.1,
               body := if bodyStr = "" then none else some bodyStr }
    | _ => none

/-! ## Method enumeration and router (src/router.rs) -/

/-- Mirror of the `Method` enum in src/router.rs. -/
inductive Method where
  | GET | POST | PUT | DELETE | PATCH | HEAD | OPTIONS
deriving DecidableEq, Repr

/-- ASCII uppercase conversion of a single character, the model of the
case folding Rust `str::to_uppercase` performs on the method names the
source compares against. -/
def charToUpper (c : Char) : Char :=
  if c = 'a' then 'A' else if c = 'b' then 'B' else if c = 'c' then 'C'
  else if c = 'd' then 'D' else if c = 'e' then 'E' else if c = 'f' then 'F'
  else if c = 'g' then 'G' else if c = 'h' then 'H' else if c = 'i' then 'I'
  else if c = 'j' then 'J' else if c = 'k' then 'K' else if c = 'l' then 'L'
  else if c = 'm' then 'M' else if c = 'n' then 'N' else if c = 'o' then 'O'
  else if c = 'p' then 'P' else if c = 'q' then 'Q' else if c = 'r' then 'R'
  else if c = 's' then 'S' else if c = 't' then 'T' else if c = 'u' then 'U'
  else if c = 'v' then 'V' else if c = 'w' then 'W' else if c = 'x' then 'X'
  else if c = 'y' then 'Y' else if c = 'z' then 'Z' else c

/-- Model of Rust `str::to_uppercase`. -/
def toUpperStr (s : String) : String :=
  String.mk (s.data.map charToUpper)

/-- Mirror of `Method::from_str` (src/router.rs lines 17-28): uppercase
the input and compare against the seven method names. -/
def Method.from_str (s : String) : Option Method :=
  let u := toUpperStr s
  if u = "GET" then some Method.GET
  else if u = "POST" then some Method.POST
  else if u = "PUT" then some Method.PUT
  else if u = "DELETE" then some Method.DELETE
  else if u = "PATCH" then some Method.PATCH
  else if u = "HEAD" then some Method.HEAD
  else if u = "OPTIONS" then some Method.OPTIONS
  else none

/-- Mirror of `Method::as_str` (src/router.rs lines 30-40). -/
def Method.as_str : Method → String
  | Method.GET => "GET"
  | Method.POST => "POST"
  | Method.PUT => "PUT"
  | Method.DELETE => "DELETE"
  | Method.PATCH => "PATCH"
  | Method.HEAD => "HEAD"
  | Method.OPTIONS => "OPTIONS"

/-- Mirror of `Router::add_route` (src/router.rs lines 56-60): insert the
handler under the key `method.as_str() + ":" + path`.  The route table is
the association-list model of the Rust HashMap; the handler type is left
abstract. -/
def Router.add_route {α : Type} (routes : List (String × α)) (m : Method) (path : String)
    (h : α) : List (String × α) :=
  listInsert routes (m.as_str ++ ":" ++ path) h

/-- Mirror of `Router::find_handler` (src/router.rs lines 63-67): exact
lookup of the key `method + ":" + path` built from the raw method and
path strings. -/
def Router.find_handler {α : Type} (routes : List (String × α)) (method path : String) :
    Option α :=
  listLookup routes (method ++ ":" ++ path)

/-- A route table built by registering a list of (method, path, handler)
triples in order, starting from the empty table, via `add_route`. -/
def mkTable {α : Type} (regs : List (Method × String × α)) : List (String × α) :=
  regs.foldl (fun t r => Router.add_route t r.1 r.2.1 r.2.2) []

/-- Specification-side lookup over the registration list itself: the
handler of the last registration whose (method, path) pair matches
exactly, if any.  Stated on pairs, with no key encoding. -/
def lookupReg {α : Type} : List (Method × String × α) → Method → String → Option α
  | [], _, _ => none
  | r :: rest, m, p =>
      match lookupReg rest m p with
      | some h => some h
      | none => if r.1 = m ∧ r.2.1 = p then some r.2.2 else none

/-! ## Handler chains (src/handler.rs, src/middleware.rs, src/app/expresso.rs)

The Rust `Next` type is a zero-argument continuation returning a
`Response` and `Handler` is any `(Request, Response, Next) -> Response`
function (async erased as explained in the header).  Two parallel models
are given: the plain one, translating the source types verbatim, and a
traced one, identical except that every result is paired with a ghost
list of `Nat` events so that theorems can speak about which handlers ran
and in which order.  The traced composition code is exactly the plain
code; only the handler result type changes. -/

abbrev Next := Unit → Response

abbrev Handler := Request → Response → Next → Response

abbrev TNext := Unit → List Nat × Response

abbrev THandler := Request → Response → TNext → List Nat × Response

/-- Mirror of `execute_handlers` (src/handler.rs lines 42-75, repeated in
src/app/expresso.rs lines 169-202): past the last index return the
current response; otherwise call the handler at `index` with a
continuation that recurses into `index + 1` forwarding the request and
response values this call received. -/
def execute_handlers (req : Request) (res : Response) (handlers : List Handler)
    (index : Nat) (final_next : Next) : Response :=
  if h : handlers.length ≤ index then res
  else
    handlers[index] req res (fun _ => execute_handlers req res handlers (index + 1) final_next)
termination_by handlers.length - index
decreasing_by simp_wf; omega

/-- Mirror of `into_chained_handler` (src/handler.rs lines 28-38, repeated
in src/app/expresso.rs lines 155-165): the empty list becomes the handler
that returns the response unchanged; otherwise execution starts at index
0 with the supplied outer continuation as `final_next`. -/
def into_chained_handler (handlers : List Handler) : Handler :=
  if handlers.isEmpty then fun _req res _next => res
  else fun req res final_next => execute_handlers req res handlers 0 final_next

/-- Traced copy of `execute_handlers`; the base case carries the empty
event list. -/
def execute_handlersT (req : Request) (res : Response) (handlers : List THandler)
    (index : Nat) (final_next : TNext) : List Nat × Response :=
  if h : handlers.length ≤ index then ([], res)
  else
    handlers[index] req res (fun _ => execute_handlersT req res handlers (index + 1) final_next)
termination_by handlers.length - index
decreasing_by simp_wf; omega

/-- Traced copy of `into_chained_handler`. -/
def into_chained_handlerT (handlers : List THandler) : THandler :=
  if handlers.isEmpty then fun _req res _next => ([], res)
  else fun req res final_next => execute_handlersT req res handlers 0 final_next

/-- The fixed fallback continuation value `Response::new().status(500)
.send("Internal Error")` from src/middleware.rs lines 60-64 and
src/app/expresso.rs lines 107-113 and 128-130. -/
def internal_error_response : Response :=
  (Response.new.status 500).send "Internal Error"

/-- Traced mirror of `MiddlewareManager::build_chain` (src/middleware.rs
lines 30-74; src/app/expresso.rs lines 84-122 inline the identical fold):
fold the middleware list in reverse so that the first registered
middleware is outermost; every wrapper ignores the continuation it is
handed and gives its inner handler the fixed 500 fallback continuation. -/
def build_chainT (middlewares : List THandler) (final_handler : THandler) : THandler :=
  (middlewares.reverse).foldl
    (fun next_handler mw =>
      fun req res _final_next =>
        mw req res (fun _ => next_handler req res (fun _ => ([], internal_error_response))))
    final_handler

/-- The built-in 404 fallback handler of `Expresso::listen`
(src/app/expresso.rs lines 79-82). -/
def not_found_handler : THandler :=
  fun _req res _next => ([], (res.status 404).send "Not Found")

/-- Traced mirror of the dispatch performed per request inside
`Expresso::listen` (src/app/expresso.rs lines 67-133): start from a fresh
response, look up `method + ":" + path` in the route table, fall back to
the built-in 404 handler, wrap with the global middleware fold, and
invoke the chain with the fixed 500 fallback continuation. -/
def dispatchT (routes : List (String × THandler)) (middlewares : List THandler)
    (req : Request) : List Nat × Response :=
  let res := Response.new
  let key := req.method ++ ":" ++ req.path
  let final_handler : THandler :=
    match listLookup routes key with
    | some h => h
    | none => not_found_handler
  let chain := build_chainT middlewares final_handler
  chain req res (fun _ => ([], internal_error_response))

/-! ### Canonical handler shapes used to state behavioural claims -/

/-- A middleware that invokes its continuation exactly once: it records
its label `i`, defers to the rest of the chain, and post-processes the
result with `post`. -/
def onceMW (i : Nat) (post : Response → Response) : THandler :=
  fun _req _res next =>
    let p := next ()
    (i :: p.1, post p.2)

/-- A middleware that invokes its continuation exactly once and returns
its result unchanged. -/
def passMW (i : Nat) : THandler :=
  onceMW i id

/-- A handler that short-circuits: it never invokes its continuation and
returns the fixed response `r`. -/
def shortMW (i : Nat) (r : Response) : THandler :=
  fun _req _res _next => ([i], r)

/-- A terminal handler: records its label and computes its response from
the request and response it is given, ignoring its continuation. -/
def termH (i : Nat) (f : Request → Response → Response) : THandler :=
  fun req res _next => ([i], f req res)

/-! ## Connection handling (src/server/listener.rs)

Each accepted connection performs one bounded read; the model takes the
bytes read as a string (`from_utf8_lossy`) and returns the bytes written
back, `none` when nothing is written. -/

/-- Mirror of `Server::handle_connection` (src/server/listener.rs lines
33-62): a zero-byte read writes nothing; a buffer that parses gets the
fixed demo 200 response; a buffer that fails to parse gets the fixed 400
response with empty body. -/
def handle_connection (buffer : String) : Option String :=
  if buffer = "" then none
  else
    match Request.from_raw buffer with
    | some req =>
        some ((((Response.new.status 200).set_header "Content-Type" "text/plain").send
          ("Received " ++ req.method ++ " request for " ++ req.path)).build)
    | none => some "HTTP/1.1 400 Bad Request\r\nContent-Length: 0\r\n\r\n"

/-- Mirror of the per-connection task of `Server::listen_with_handler`
(src/server/listener.rs lines 76-89): a zero-byte read writes nothing; a
buffer that parses is dispatched to the supplied handler and the built
response is written; a buffer that fails to parse writes nothing at
all. -/
def listen_with_handler_conn (handler : Request → Response) (buffer : String) :
    Option String :=
  if buffer = "" then none
  else
    match Request.from_raw buffer with
    | some req => some ((handler req).build)
    | none => none

/-- A sample request value used by witnesses. -/
def reqA : Request :=
  { method := "GET", path := "/hello", version := "HTTP/1.1", headers := [], body := none }

/-! ### Specification-side definitions used in claim statements -/

/-- The status text table as the amended claim C2 states it: the source's
match in `Response::status` has exactly the five entries 200, 201, 400,
404 and 500, and every other code (including 204, 401 and 403) yields the
sentinel "Unknown". -/
def statusTextSpec (code : Nat) : String :=
  match code with
  | 200 => "OK"
  | 201 => "Created"
  | 400 => "Bad Request"
  | 404 => "Not Found"
  | 500 => "Internal Server Error"
  | _ => "Unknown"

/-- The header block as claim C8 states it: each header emitted as
"Key: Value" followed by CRLF, in the mapping's iteration order. -/
def headerLinesSpec : List (String × String) → String
  | [] => ""
  | p :: rest => p.1 ++ ": " ++ p.2 ++ "\r\n" ++ headerLinesSpec rest

/-- The request line: the first CRLF-separated line of the buffer. -/
def firstLine (buffer : String) : String :=
  (splitCRLF buffer).headD ""

/-- The lines following the request line. -/
def restLines (buffer : String) : List String :=
  (splitCRLF buffer).tail

/-- The lines strictly after the first empty line ([] when there is no
empty line). -/
def linesAfterFirstEmpty (ls : List String) : List String :=
  (ls.dropWhile (fun l => l != "")).tail

/-! ## Chain lemmas -/

/-- Shifting off the head of the handler list: executing `h :: rest` from
index `i + 1` is executing `rest` from index `i`. -/
lemma exec_shift (req : Request) (res : Response) (fn : TNext) :
    ∀ (n : Nat) (rest : List THandler) (hnd : THandler) (i : Nat), rest.length - i ≤ n →
      execute_handlersT req res (hnd :: rest) (i + 1) fn = execute_handlersT req res rest i fn := by
  intro n
  induction n with
  | zero =>
      intro rest hnd i hle
      have h1 : (hnd :: rest).length ≤ i + 1 := by simp; omega
      have h2 : rest.length ≤ i := by omega
      conv_lhs => rw [execute_handlersT]
      conv_rhs => rw [execute_handlersT]
      rw [dif_pos h1, dif_pos h2]
  | succ n ih =>
      intro rest hnd i hle
      by_cases hc : rest.length ≤ i
      · have h1 : (hnd :: rest).length ≤ i + 1 := by simp; omega
        conv_lhs => rw [execute_handlersT]
        conv_rhs => rw [execute_handlersT]
        rw [dif_pos h1, dif_pos hc]
      · have h1 : ¬ (hnd :: rest).length ≤ i + 1 := by simp; omega
        conv_lhs => rw [execute_handlersT]
        conv_rhs => rw [execute_handlersT]
        rw [dif_neg h1, dif_neg hc]
        have hg : (hnd :: rest)[i + 1] = rest[i] := by
          simp
        rw [hg]
        have hcont : (fun _ : Unit => execute_handlersT req res (hnd :: rest) (i + 1 + 1) fn) =
            (fun _ : Unit => execute_handlersT req res rest (i + 1) fn) :=
          funext (fun _ => ih rest hnd (i + 1) (by omega))
        rw [hcont]

/-- Unfolding the head step of a traced chain execution. -/
lemma exec_consT (hnd : THandler) (rest : List THandler) (req : Request) (res : Response)
    (fn : TNext) :
    execute_handlersT req res (hnd :: rest) 0 fn =
      hnd req res (fun _ => execute_handlersT req res rest 0 fn) := by
  conv_lhs => rw [execute_handlersT]
  have h1 : ¬ (hnd :: rest).length ≤ 0 := by simp
  rw [dif_neg h1]
  have hcont : (fun _ : Unit => execute_handlersT req res (hnd :: rest) (0 + 1) fn) =
      (fun _ : Unit => execute_handlersT req res rest 0 fn) :=
    funext (fun _ => exec_shift req res fn rest.length rest hnd 0 (by omega))
  rw [hcont]
  simp

/-- Executing a block of pass-through middlewares prepends their labels
to whatever the rest of the list produces. -/
lemma exec_append_pass (ls : List Nat) (hs : List THandler) (req : Request) (res : Response)
    (fn : TNext) :
    execute_handlersT req res (ls.map passMW ++ hs) 0 fn =
      (ls ++ (execute_handlersT req res hs 0 fn).1, (execute_handlersT req res hs 0 fn).2) := by
  induction ls with
  | nil => simp
  | cons l ls ih =>
      simp only [List.map_cons, List.cons_append]
      rw [exec_consT]
      simp only [passMW, onceMW, id]
      rw [ih]

/-- Peeling one middleware off the front of the global chain fold. -/
lemma build_chainT_cons (mw : THandler) (rest : List THandler) (H : THandler) :
    build_chainT (mw :: rest) H = fun req res _fn =>
      mw req res (fun _ => build_chainT rest H req res (fun _ => ([], internal_error_response))) := by
  simp [build_chainT, List.foldl_append]

/-- A global chain of once-calling middlewares over a terminal handler
that ignores its continuation runs the middlewares in registration order,
then the terminal handler, and post-processes its result from the inside
out. -/
lemma chain_once (req : Request) (res : Response) (t0 : List Nat) (r0 : Response)
    (ps : List (Nat × (Response → Response))) (H : THandler)
    (hH : ∀ fn, H req res fn = (t0, r0)) (fn : TNext) :
    build_chainT (ps.map (fun p => onceMW p.1 p.2)) H req res fn =
      (ps.map Prod.fst ++ t0, ps.foldr (fun p acc => p.2 acc) r0) := by
  induction ps generalizing fn with
  | nil => simpa [build_chainT] using hH fn
  | cons p ps ih =>
      simp only [List.map_cons]
      rw [build_chainT_cons]
      simp only [onceMW]
      rw [ih]
      simp

/-- Executing the empty traced handler list yields the response unchanged
with no events. -/
lemma execT_nil (req : Request) (res : Response) (fn : TNext) :
    execute_handlersT req res [] 0 fn = ([], res) := by
  rw [execute_handlersT]
  simp

/-- The posts of identity-post middleware pairs compose to the identity. -/
lemma foldr_id_posts (ls : List Nat) (r : Response) :
    (ls.map (fun l => (l, (id : Response → Response)))).foldr (fun p acc => p.2 acc) r = r := by
  induction ls <;> simp_all

/-! ## Claims about the chain composer -/

/-- Claim C1: for every ordered handler list, the composed per-route
handler built by `into_chained_handler` / `execute_handlers`, once the
recursion has advanced past the last index, returns the current Response
value as-is and never invokes the outer continuation `final_next` (the
result is the same for every `final_next`, which for these pure models is
exactly continuation-independence); for the empty list it returns the
initial Response unchanged immediately.  The third conjunct runs a full
chain of labelled middlewares that each call their continuation once and
return its result: the trace shows every handler ran and the final value
is the threaded response, not the outer fallback. -/
theorem claim_C1 (hs : List Handler) (req : Request) (res : Response) (fn : Next)
    (idx : Nat) (ls : List Nat) (tfn : TNext) (h : hs.length ≤ idx) :
    execute_handlers req res hs idx fn = res
    ∧ into_chained_handler [] req res fn = res
    ∧ into_chained_handlerT (ls.map passMW) req res tfn = (ls, res) := by
  refine ⟨?_, rfl, ?_⟩
  · rw [execute_handlers]
    rw [dif_pos h]
  · cases ls with
    | nil => rfl
    | cons l ls' =>
        show execute_handlersT req res ((l :: ls').map passMW) 0 tfn = (l :: ls', res)
        have hap := exec_append_pass (l :: ls') [] req res tfn
        rw [List.append_nil] at hap
        rw [hap, execT_nil]
        simp

/-- Witness for claim C1 at a concrete chain. -/
theorem claim_C1_witness :
    execute_handlers reqA Response.new [] 0 (fun _ => Response.new) = Response.new
    ∧ into_chained_handler [] reqA Response.new (fun _ => Response.new) = Response.new
    ∧ into_chained_handlerT ([3, 7].map passMW) reqA Response.new
        (fun _ => ([], Response.new)) = ([3, 7], Response.new) :=
  claim_C1 [] reqA Response.new (fun _ => Response.new) 0 [3, 7]
    (fun _ => ([], Response.new)) (by decide)

/-- Claim C4: global middlewares registered in order, each invoking its
continuation exactly once (canonical shape `onceMW`: record the label,
defer, post-process), execute in registration order followed by the
terminal handler; the last middleware's continuation leads into the
terminal handler, whose label appears right after the middleware
labels. -/
theorem claim_C4 (ps : List (Nat × (Response → Response))) (tL : Nat)
    (f : Request → Response → Response) (req : Request) (res : Response) (fn : TNext) :
    build_chainT (ps.map (fun p => onceMW p.1 p.2)) (termH tL f) req res fn =
      (ps.map Prod.fst ++ [tL], ps.foldr (fun p acc => p.2 acc) (f req res)) :=
  chain_once req res [tL] (f req res) ps (termH tL f) (fun _ => rfl) fn

/-- Claim C5: in a route chain whose handlers before index `k` defer to
their continuation (returning its result), if the handler at index `k`
short-circuits by returning `R` without invoking its continuation, the
composed handler's result is exactly `R`, and no handler after index `k`
is ever invoked: the result is independent of the arbitrary `suffix` and
its labels never appear in the trace. -/
theorem claim_C5 (ls : List Nat) (k : Nat) (R : Response) (suffix : List THandler)
    (req : Request) (res : Response) (fn : TNext) :
    into_chained_handlerT (ls.map passMW ++ shortMW k R :: suffix) req res fn =
      (ls ++ [k], R) := by
  have hne : (ls.map passMW ++ shortMW k R :: suffix).isEmpty = false := by
    cases ls <;> simp
  simp only [into_chained_handlerT, hne, Bool.false_eq_true, if_false]
  rw [exec_append_pass, exec_consT]
  rfl

/-- Claim C7: a request matching no registered route is dispatched to the
built-in 404 handler, wrapped by the full global middleware chain exactly
like a matched route: with pass-through labelled middlewares the trace
contains every middleware label in registration order and the final
response is status 404 with body "Not Found". -/
theorem claim_C7 (routes : List (String × THandler)) (ls : List Nat) (req : Request)
    (h : listLookup routes (req.method ++ ":" ++ req.path) = none) :
    dispatchT routes (ls.map passMW) req = (ls, (Response.new.status 404).send "Not Found") := by
  simp only [dispatchT]
  rw [h]
  have hmap : ls.map passMW =
      (ls.map (fun l => (l, (id : Response → Response)))).map (fun p => onceMW p.1 p.2) := by
    rw [List.map_map]
    rfl
  rw [hmap]
  rw [chain_once req Response.new [] ((Response.new.status 404).send "Not Found") _
    not_found_handler (fun _ => rfl) _]
  rw [foldr_id_posts]
  simp only [List.map_map, List.append_nil]
  have hfst : (Prod.fst ∘ fun l : Nat => (l, (id : Response → Response))) = fun l => l := rfl
  rw [hfst]
  simp

/-- Witness for claim C7 at a concrete empty route table. -/
theorem claim_C7_witness :
    dispatchT [] ([0, 1].map passMW) reqA = ([0, 1], (Response.new.status 404).send "Not Found") :=
  claim_C7 [] [0, 1] reqA rfl

/-! ## Claim C2: the status text table -/

/-- Counterexample to claim C2 as stated: the claim's table lists 204 →
"No Content", 401 → "Unauthorized" and 403 → "Forbidden", but
`Response::status` maps all three to "Unknown". -/
theorem claim_C2_counterexample :
    (Response.new.status 204).status_text = "Unknown"
    ∧ (Response.new.status 401).status_text = "Unknown"
    ∧ (Response.new.status 403).status_text = "Unknown"
    ∧ (Response.new.status 204).status_text ≠ "No Content"
    ∧ (Response.new.status 401).status_text ≠ "Unauthorized"
    ∧ (Response.new.status 403).status_text ≠ "Forbidden" := by
  refine ⟨rfl, rfl, rfl, ?_, ?_, ?_⟩ <;> decide

/-- Claim C2 (amended): for every status code passed to
`Response::status`, the stored code is the argument and the derived
status text equals the five-entry table 200 "OK", 201 "Created", 400
"Bad Request", 404 "Not Found", 500 "Internal Server Error", with every
other code yielding the sentinel "Unknown". -/
theorem claim_C2 (r : Response) (code : Nat) :
    (r.status code).status_code = code
    ∧ (r.status code).status_text = statusTextSpec code :=
  ⟨rfl, rfl⟩

/-! ## Claim C3: connection-level handling of unparsable input -/

/-- Counterexample to claim C3 as stated: the per-connection task of
`Server::listen_with_handler` (the path `Expresso::listen` drives) writes
nothing at all on a parse failure — not a 400 response — and
`Server::handle_connection` writes nothing for empty input. -/
theorem claim_C3_counterexample :
    listen_with_handler_conn (fun _ => Response.new) "x" = none
    ∧ handle_connection "" = none
    ∧ listen_with_handler_conn (fun _ => Response.new) "" = none := by
  refine ⟨?_, rfl, rfl⟩
  decide

/-- Claim C3 (amended): for every input buffer that fails to parse into a
Request, `Server::handle_connection` writes the fixed status 400
empty-body response when the buffer is non-empty, and the per-connection
task of `Server::listen_with_handler` invokes no route/middleware handler
(its output is independent of the supplied handler) and writes nothing;
an empty (zero-byte) read produces no response in either path, whatever
the supplied handler; neither path performs a router lookup on such
input. -/
theorem claim_C3 (buffer : String) (f g : Request → Response)
    (hparse : Request.from_raw buffer = none) :
    (¬ buffer = "" →
      handle_connection buffer = some "HTTP/1.1 400 Bad Request\r\nContent-Length: 0\r\n\r\n")
    ∧ listen_with_handler_conn f buffer = listen_with_handler_conn g buffer
    ∧ listen_with_handler_conn f buffer = none
    ∧ handle_connection "" = none
    ∧ listen_with_handler_conn f "" = none := by
  refine ⟨fun hne => ?_, ?_, ?_, rfl, rfl⟩
  · simp [handle_connection, hne, hparse]
  · by_cases hne : buffer = ""
    · rw [hne]
      rfl
    · simp [listen_with_handler_conn, hne, hparse]
  · by_cases hne : buffer = ""
    · rw [hne]
      rfl
    · simp [listen_with_handler_conn, hne, hparse]

/-- Witness for claim C3 at the concrete unparsable buffer "x" and the
empty buffer. -/
theorem claim_C3_witness :
    handle_connection "x" = some "HTTP/1.1 400 Bad Request\r\nContent-Length: 0\r\n\r\n"
    ∧ listen_with_handler_conn (fun _ => Response.new) "x" =
        listen_with_handler_conn (fun _ => Response.new.status 500) "x"
    ∧ listen_with_handler_conn (fun _ => Response.new) "x" = none
    ∧ handle_connection "" = none
    ∧ listen_with_handler_conn (fun _ => Response.new) "" = none := by
  have h := claim_C3 "x" (fun _ => Response.new) (fun _ => Response.new.status 500) (by decide)
  exact ⟨h.1 (by decide), h.2.1, h.2.2.1, h.2.2.2.1, h.2.2.2.2⟩

/-! ## Claim C8: response serialization -/

/-- The source's left fold accumulating header lines onto a string equals
the straightforward concatenation of the per-header lines. -/
lemma foldl_headerLines (hs : List (String × String)) :
    ∀ acc : String,
      hs.foldl (fun acc p => acc ++ p.1 ++ ": " ++ p.2 ++ "\r\n") acc =
        acc ++ headerLinesSpec hs := by
  induction hs with
  | nil => intro acc; simp [headerLinesSpec, String.append_empty]
  | cons p rest ih =>
      intro acc
      simp only [List.foldl_cons, headerLinesSpec]
      rw [ih]
      simp [String.append_assoc]

/-- Claim C8: serializing a Response emits exactly the status line
"HTTP/1.1 code reason" with CRLF, then "Content-Length: n" with CRLF
where n is the byte length of the body (0 when the body is absent), then
each header as "Key: Value" with CRLF in the mapping's iteration order, a
blank line, then the body. -/
theorem claim_C8 (r : Response) :
    r.build = "HTTP/1.1 " ++ toString r.status_code ++ " " ++ r.status_text ++
      "\r\nContent-Length: " ++ toString ((r.body.getD "").utf8ByteSize) ++ "\r\n" ++
      headerLinesSpec r.headers ++ "\r\n" ++ r.body.getD ""
    ∧ (r.body = none → (r.body.getD "").utf8ByteSize = 0) := by
  constructor
  · simp only [Response.build]
    rw [foldl_headerLines r.headers ""]
    rw [String.empty_append]
  · intro hb
    rw [hb]
    rfl

/-- Witness for claim C8: the serialization equation at the concrete
scenario response of the spec, and the zero Content-Length of a bodyless
response. -/
theorem claim_C8_witness :
    ((Response.new.status 200).send "Hello, World!").build =
      "HTTP/1.1 " ++ toString ((Response.new.status 200).send "Hello, World!").status_code ++
        " " ++ ((Response.new.status 200).send "Hello, World!").status_text ++
        "\r\nContent-Length: " ++
        toString ((((Response.new.status 200).send "Hello, World!").body.getD "").utf8ByteSize) ++
        "\r\n" ++ headerLinesSpec ((Response.new.status 200).send "Hello, World!").headers ++
        "\r\n" ++ ((Response.new.status 200).send "Hello, World!").body.getD ""
    ∧ (Response.new.body.getD "").utf8ByteSize = 0 :=
  ⟨(claim_C8 ((Response.new.status 200).send "Hello, World!")).1,
   (claim_C8 Response.new).2 rfl⟩

/-! ## Claim C9: request parsing -/

/-- The header loop leaves exactly the lines after the first empty line
as the body lines, whatever headers it accumulated. -/
lemma parseHeaderLines_snd (ls : List String) :
    ∀ acc, (parseHeaderLines acc ls).2 = linesAfterFirstEmpty ls := by
  induction ls with
  | nil => intro acc; rfl
  | cons line rest ih =>
      intro acc
      by_cases h : line = ""
      · subst h
        simp [parseHeaderLines, linesAfterFirstEmpty]
      · cases hs : splitOnceColonSpace line <;>
          simp [parseHeaderLines, h, hs, ih, linesAfterFirstEmpty]

/-- A non-empty header line that does not contain the "Key: Value"
separator is skipped: parsing is as if the line were absent, provided it
sits before the first empty line. -/
lemma parseHeaderLines_skip (bad : String) (hbad2 : ¬ bad = "")
    (hbad3 : splitOnceColonSpace bad = none) :
    ∀ (ls1 : List String) (acc : List (String × String)) (ls2 : List String), "" ∉ ls1 →
      parseHeaderLines acc (ls1 ++ bad :: ls2) = parseHeaderLines acc (ls1 ++ ls2) := by
  intro ls1
  induction ls1 with
  | nil =>
      intro acc ls2 _
      simp [parseHeaderLines, hbad2, hbad3]
  | cons x xs ih =>
      intro acc ls2 hmem
      have hx : ¬ x = "" := by
        intro hx
        exact hmem (by simp [hx])
      have hxs : "" ∉ xs := fun hm => hmem (List.mem_cons_of_mem _ hm)
      cases hs : splitOnceColonSpace x <;>
        simp [parseHeaderLines, hx, hs, ih _ _ hxs]

/-- Claim C9: `Request::from_raw` returns none exactly when the request
line has fewer than three whitespace tokens; on success the body is the
CRLF-join of the lines after the first empty line (none when empty);
non-empty header lines lacking the "Key: Value" separator are silently
skipped while well-formed ones are inserted into the header map. -/
theorem claim_C9 (buffer : String) (acc : List (String × String)) (ls1 : List String)
    (bad good k v : String) (ls2 rest2 : List String)
    (hbad1 : "" ∉ ls1) (hbad2 : ¬ bad = "") (hbad3 : splitOnceColonSpace bad = none)
    (hgood1 : ¬ good = "") (hgood2 : splitOnceColonSpace good = some (k, v)) :
    (Request.from_raw buffer = none ↔ (splitWhitespaceStr (firstLine buffer)).length < 3)
    ∧ (∀ req, Request.from_raw buffer = some req →
        req.body = (if joinCRLF (linesAfterFirstEmpty (restLines buffer)) = "" then none
                    else some (joinCRLF (linesAfterFirstEmpty (restLines buffer)))))
    ∧ parseHeaderLines acc (ls1 ++ bad :: ls2) = parseHeaderLines acc (ls1 ++ ls2)
    ∧ parseHeaderLines acc (good :: rest2) = parseHeaderLines (listInsert acc k v) rest2 := by
  refine ⟨?_, ?_, parseHeaderLines_skip bad hbad2 hbad3 ls1 acc ls2 hbad1, ?_⟩
  · cases hsp : splitCRLF buffer with
    | nil =>
        simp only [Request.from_raw, hsp, firstLine, List.headD]
        simp
        decide
    | cons rl rest =>
        cases htok : splitWhitespaceStr rl with
        | nil => simp [Request.from_raw, hsp, htok, firstLine]
        | cons a t1 =>
            cases t1 with
            | nil => simp [Request.from_raw, hsp, htok, firstLine]
            | cons b t2 =>
                cases t2 with
                | nil => simp [Request.from_raw, hsp, htok, firstLine]
                | cons c t3 => simp [Request.from_raw, hsp, htok, firstLine]
  · intro req hreq
    cases hsp : splitCRLF buffer with
    | nil => simp [Request.from_raw, hsp] at hreq
    | cons rl rest =>
        cases htok : splitWhitespaceStr rl with
        | nil => simp [Request.from_raw, hsp, htok] at hreq
        | cons a t1 =>
            cases t1 with
            | nil => simp [Request.from_raw, hsp, htok] at hreq
            | cons b t2 =>
                cases t2 with
                | nil => simp [Request.from_raw, hsp, htok] at hreq
                | cons c t3 =>
                    simp only [Request.from_raw, hsp, htok] at hreq
                    have hrest : restLines buffer = rest := by
                      simp [restLines, hsp]
                    have hr := Option.some.inj hreq
                    rw [← hr]
                    simp [parseHeaderLines_snd, hrest]
  · simp [parseHeaderLines, hgood1, hgood2]

/-- Witness for claim C9 at concrete buffers and header line lists. -/
theorem claim_C9_witness :
    Request.from_raw "GET /a\r\n\r\n" = none
    ∧ ((some "hello" : Option String) =
        (if joinCRLF (linesAfterFirstEmpty
              (restLines "GET /a HTTP/1.1\r\nHost: x\r\nbad\r\n\r\nhello")) = "" then none
         else some (joinCRLF (linesAfterFirstEmpty
              (restLines "GET /a HTTP/1.1\r\nHost: x\r\nbad\r\n\r\nhello")))))
    ∧ parseHeaderLines [] (["Host: x"] ++ "bad" :: ["", "b"]) =
        parseHeaderLines [] (["Host: x"] ++ ["", "b"])
    ∧ parseHeaderLines [] ("Host: x" :: ["", "b"]) =
        parseHeaderLines (listInsert [] "Host" "x") ["", "b"] := by
  refine ⟨?_, ?_, ?_, ?_⟩
  · exact (claim_C9 "GET /a\r\n\r\n" [] [] "bad" "Host: x" "Host" "x" [] []
      (by decide) (by decide) (by decide) (by decide) (by decide)).1.mpr (by decide)
  · exact (claim_C9 "GET /a HTTP/1.1\r\nHost: x\r\nbad\r\n\r\nhello"
      [] [] "bad" "Host: x" "Host" "x" [] []
      (by decide) (by decide) (by decide) (by decide) (by decide)).2.1
      { method := "GET", path := "/a", version := "HTTP/1.1",
        headers := [("Host", "x")], body := some "hello" } (by decide)
  · exact (claim_C9 "" [] ["Host: x"] "bad" "Host: x" "Host" "x" ["", "b"] []
      (by decide) (by decide) (by decide) (by decide) (by decide)).2.2.1
  · exact (claim_C9 "" [] ["Host: x"] "bad" "Host: x" "Host" "x" ["", "b"] ["", "b"]
      (by decide) (by decide) (by decide) (by decide) (by decide)).2.2.2

/-! ## Claim C6: router exact-match lookup -/

/-- Splitting at the first separator character: two lists whose prefixes
avoid the separator and that agree as separated concatenations agree
componentwise. -/
lemma sep_append_inj :
    ∀ (a : List Char), ':' ∉ a → ∀ (b : List Char), ':' ∉ b →
      ∀ p q : List Char, a ++ ':' :: p = b ++ ':' :: q → a = b ∧ p = q := by
  intro a
  induction a with
  | nil =>
      intro _ b hb p q h
      cases b with
      | nil =>
          simp only [List.nil_append] at h
          exact ⟨rfl, List.cons.inj h |>.2⟩
      | cons c b' =>
          simp only [List.nil_append, List.cons_append] at h
          obtain ⟨hc, _⟩ := List.cons.inj h
          exact absurd (hc ▸ List.mem_cons_self c b') hb
  | cons c a' ih =>
      intro ha b hb p q h
      cases b with
      | nil =>
          simp only [List.cons_append, List.nil_append] at h
          obtain ⟨hc, _⟩ := List.cons.inj h
          exact absurd (hc ▸ List.mem_cons_self c a') ha
      | cons d b' =>
          simp only [List.cons_append] at h
          obtain ⟨hc, ht⟩ := List.cons.inj h
          have ha' : ':' ∉ a' := fun hm => ha (List.mem_cons_of_mem _ hm)
          have hb' : ':' ∉ b' := fun hm => hb (List.mem_cons_of_mem _ hm)
          obtain ⟨h1, h2⟩ := ih ha' b' hb' p q ht
          exact ⟨by rw [hc, h1], h2⟩

/-- No method name contains the key separator. -/
lemma colon_not_in_as_str (m : Method) : ':' ∉ (Method.as_str m).data := by
  cases m <;> decide

/-- The seven method names are pairwise distinct. -/
lemma as_str_inj (m m' : Method) : m.as_str = m'.as_str → m = m' := by
  cases m <;> cases m' <;> decide

/-- Key encoding is injective: two (method, path) pairs build the same
route key exactly when they are equal. -/
lemma key_inj (m m' : Method) (p p' : String) :
    m.as_str ++ ":" ++ p = m'.as_str ++ ":" ++ p' ↔ m = m' ∧ p = p' := by
  constructor
  · intro h
    have hd : (m.as_str ++ ":" ++ p).data = (m'.as_str ++ ":" ++ p').data := by rw [h]
    rw [String.data_append, String.data_append, String.data_append, String.data_append] at hd
    have hcd : (":" : String).data = [':'] := rfl
    rw [hcd, List.append_assoc, List.append_assoc, List.singleton_append,
      List.singleton_append] at hd
    obtain ⟨h1, h2⟩ := sep_append_inj _ (colon_not_in_as_str m) _ (colon_not_in_as_str m')
      _ _ hd
    exact ⟨as_str_inj m m' (String.ext h1), String.ext h2⟩
  · rintro ⟨rfl, rfl⟩
    rfl

/-- Lookup after replace-on-insert behaves like a map update. -/
lemma listLookup_insert {α : Type} (t : List (String × α)) (k k' : String) (v : α) :
    listLookup (listInsert t k v) k' = if k = k' then some v else listLookup t k' := by
  induction t with
  | nil => simp [listInsert, listLookup]
  | cons a rest ih =>
      obtain ⟨ka, va⟩ := a
      by_cases h : ka = k
      · subst h
        by_cases h2 : ka = k'
        · subst h2
          simp [listInsert, listLookup]
        · simp [listInsert, listLookup, h2]
      · by_cases h2 : ka = k'
        · subst h2
          have hkk : ¬ k = ka := fun hk => h hk.symm
          simp [listInsert, h, listLookup, hkk]
        · simp [listInsert, h, listLookup, h2, ih]

/-- Lookup in a table built by folding registrations over a base table:
the last matching registration wins, falling back to the base table. -/
lemma lookup_foldTable {α : Type} :
    ∀ (regs : List (Method × String × α)) (t : List (String × α)) (m : Method) (p : String),
      listLookup (regs.foldl (fun t r => Router.add_route t r.1 r.2.1 r.2.2) t)
          (m.as_str ++ ":" ++ p) =
        (match lookupReg regs m p with
         | some h => some h
         | none => listLookup t (m.as_str ++ ":" ++ p)) := by
  intro regs
  induction regs with
  | nil => intro t m p; rfl
  | cons r rest ih =>
      intro t m p
      simp only [List.foldl_cons, lookupReg]
      rw [ih]
      cases hlr : lookupReg rest m p with
      | some h => simp
      | none =>
          simp only []
          rw [Router.add_route, listLookup_insert]
          by_cases hc : r.1 = m ∧ r.2.1 = p
          · obtain ⟨h1, h2⟩ := hc
            rw [if_pos (key_inj r.1 m r.2.1 p |>.mpr ⟨h1, h2⟩), if_pos ⟨h1, h2⟩]
          · rw [if_neg (fun hk => hc ((key_inj r.1 m r.2.1 p).mp hk)), if_neg hc]

/-- The specification-side lookup returns none exactly when no
registration matches the pair. -/
lemma lookupReg_eq_none {α : Type} :
    ∀ (regs : List (Method × String × α)) (m : Method) (p : String),
      lookupReg regs m p = none ↔ ∀ r ∈ regs, ¬ (r.1 = m ∧ r.2.1 = p) := by
  intro regs
  induction regs with
  | nil => intro m p; simp [lookupReg]
  | cons r rest ih =>
      intro m p
      simp only [lookupReg]
      cases hlr : lookupReg rest m p with
      | some h =>
          constructor
          · intro h0
            exact absurd h0 (by simp)
          · intro hall
            have h0 : lookupReg rest m p = none :=
              (ih m p).mpr (fun r' hr' => hall r' (List.mem_cons_of_mem _ hr'))
            rw [hlr] at h0
            exact h0
      | none =>
          have hrest : ∀ r' ∈ rest, ¬ (r'.1 = m ∧ r'.2.1 = p) := (ih m p).mp hlr
          by_cases hc : r.1 = m ∧ r.2.1 = p
          · constructor
            · intro h0
              rw [if_pos hc] at h0
              exact absurd h0 (by simp)
            · intro hall
              exact absurd hc (hall r (by simp))
          · constructor
            · intro _ r' hr'
              rcases List.mem_cons.mp hr' with h | h
              · rw [h]; exact hc
              · exact hrest r' h
            · intro _
              rw [if_neg hc]

/-- Claim C6: for a table built from registrations (method normalized to
the enumeration at registration), `find_handler` returns exactly the
handler of the last registration whose (method, path) pair matches, and
returns none whenever no registration matches; the lookup is an exact
string-key match with no normalization of the path. -/
theorem claim_C6 {α : Type} (regs : List (Method × String × α)) (m : Method) (p : String) :
    Router.find_handler (mkTable regs) (Method.as_str m) p = lookupReg regs m p
    ∧ ((∀ r ∈ regs, ¬ (r.1 = m ∧ r.2.1 = p)) →
        Router.find_handler (mkTable regs) (Method.as_str m) p = none) := by
  have h1 : Router.find_handler (mkTable regs) (Method.as_str m) p = lookupReg regs m p := by
    rw [Router.find_handler, mkTable, lookup_foldTable]
    cases hlr : lookupReg regs m p <;> simp [listLookup]
  exact ⟨h1, fun hall => h1.trans ((lookupReg_eq_none regs m p).mpr hall)⟩

/-- Witness for claim C6 at a concrete one-route table. -/
theorem claim_C6_witness :
    Router.find_handler (mkTable [(Method.GET, "/hello", (1 : Nat))]) "GET" "/hello" = some 1
    ∧ Router.find_handler (mkTable [(Method.GET, "/hello", (1 : Nat))]) "POST" "/hello" = none := by
  constructor
  · exact (claim_C6 [(Method.GET, "/hello", (1 : Nat))] Method.GET "/hello").1.trans (by decide)
  · exact (claim_C6 [(Method.GET, "/hello", (1 : Nat))] Method.POST "/hello").2 (by decide)

/-! ## Claim C10: Method string round-trip and case-insensitivity -/

/-- A character that is not a lowercase ASCII letter is fixed by
`charToUpper`. -/
lemma charToUpper_eq_of_notin (c : Char)
    (h : c ∉ ['a', 'b', 'c', 'd', 'e', 'f', 'g', 'h', 'i', 'j', 'k', 'l', 'm',
              'n', 'o', 'p', 'q', 'r', 's', 't', 'u', 'v', 'w', 'x', 'y', 'z']) :
    charToUpper c = c := by
  simp only [List.mem_cons, List.not_mem_nil, or_false, not_or] at h
  simp [charToUpper, h]

/-- Uppercasing a character either fixes it or produces an uppercase
ASCII letter. -/
lemma charToUpper_cases (c : Char) :
    charToUpper c = c ∨ charToUpper c ∈
      ['A', 'B', 'C', 'D', 'E', 'F', 'G', 'H', 'I', 'J', 'K', 'L', 'M',
       'N', 'O', 'P', 'Q', 'R', 'S', 'T', 'U', 'V', 'W', 'X', 'Y', 'Z'] := by
  by_cases hc : c ∈ ['a', 'b', 'c', 'd', 'e', 'f', 'g', 'h', 'i', 'j', 'k', 'l', 'm',
      'n', 'o', 'p', 'q', 'r', 's', 't', 'u', 'v', 'w', 'x', 'y', 'z']
  · right
    have hall : ∀ d ∈ ['a', 'b', 'c', 'd', 'e', 'f', 'g', 'h', 'i', 'j', 'k', 'l', 'm',
        'n', 'o', 'p', 'q', 'r', 's', 't', 'u', 'v', 'w', 'x', 'y', 'z'],
        charToUpper d ∈
          ['A', 'B', 'C', 'D', 'E', 'F', 'G', 'H', 'I', 'J', 'K', 'L', 'M',
           'N', 'O', 'P', 'Q', 'R', 'S', 'T', 'U', 'V', 'W', 'X', 'Y', 'Z'] := by decide
    exact hall c hc
  · left
    exact charToUpper_eq_of_notin c hc

/-- Uppercase ASCII letters are fixed by `charToUpper`. -/
lemma charToUpper_upper :
    ∀ d ∈ ['A', 'B', 'C', 'D', 'E', 'F', 'G', 'H', 'I', 'J', 'K', 'L', 'M',
           'N', 'O', 'P', 'Q', 'R', 'S', 'T', 'U', 'V', 'W', 'X', 'Y', 'Z'],
      charToUpper d = d := by
  decide

/-- Character uppercasing is idempotent. -/
lemma charToUpper_idem (c : Char) : charToUpper (charToUpper c) = charToUpper c := by
  rcases charToUpper_cases c with h | h
  · rw [h]
    exact h
  · exact charToUpper_upper _ h

/-- List form of uppercasing idempotence. -/
lemma map_toUpper_idem : ∀ l : List Char,
    List.map charToUpper (List.map charToUpper l) = List.map charToUpper l := by
  intro l
  induction l with
  | nil => rfl
  | cons c cs ih => simp [charToUpper_idem, ih]

/-- String uppercasing is idempotent. -/
lemma toUpperStr_idem (s : String) : toUpperStr (toUpperStr s) = toUpperStr s :=
  congrArg String.mk (map_toUpper_idem s.data)

/-- Claim C10: `Method::from_str` round-trips with `Method::as_str`, is
case-insensitive (its value on any string equals its value on the
uppercased string), and returns none exactly when the uppercased string
is not one of the seven method names. -/
theorem claim_C10 (m : Method) (s : String) :
    Method.from_str (Method.as_str m) = some m
    ∧ Method.from_str s = Method.from_str (toUpperStr s)
    ∧ (Method.from_str s = none ↔
        toUpperStr s ∉ ["GET", "POST", "PUT", "DELETE", "PATCH", "HEAD", "OPTIONS"]) := by
  refine ⟨?_, ?_, ?_⟩
  · cases m <;> decide
  · simp only [Method.from_str, toUpperStr_idem]
  · simp only [Method.from_str]
    split_ifs <;> simp_all

/-- Witness for claim C10 at concrete method strings. -/
theorem claim_C10_witness :
    Method.from_str (Method.as_str Method.GET) = some Method.GET
    ∧ Method.from_str "gEt" = Method.from_str (toUpperStr "gEt")
    ∧ (Method.from_str "TRACE" = none ↔
        toUpperStr "TRACE" ∉ ["GET", "POST", "PUT", "DELETE", "PATCH", "HEAD", "OPTIONS"]) :=
  ⟨(claim_C10 Method.GET "x").1, (claim_C10 Method.GET "gEt").2.1,
   (claim_C10 Method.GET "TRACE").2.2⟩

